import Mathlib

/-!
Verification of the query-extraction component of `go-http-helpers`
(`pkg/query/query.go`), shallowly embedded in Lean 4.

Modelling conventions:
* Go's `url.Values` (`map[string][]string`) is an association list with the
  map's lookup semantics; an absent key corresponds to `none`.
* The HTTP request abstraction supplies the already-parsed query multi-map
  (the spec treats URL parsing as upstream), so `Request` carries the
  multi-map directly and `Request.Query` models `r.URL.Query()`.
* Go's `(T, error)` parser results are modelled as `Option T`: a non-nil
  error becomes `none`, a nil error becomes `some value`.
* `strconv.Atoi` / `strconv.ParseInt(s, 10, 64)` are modelled exactly
  (optional sign, non-empty decimal digit run, signed-64-bit range check);
  the target platform's `int` is 64-bit.
* `strconv.ParseFloat(s, 64)` is modelled with exact rational values over
  its plain decimal/exponent syntax; IEEE-754 rounding, hexadecimal float
  syntax, digit-separator underscores and the `Inf`/`NaN` forms are
  abstracted away.
* `strings.TrimSpace` uses Go's `unicode.IsSpace` (the Unicode White_Space
  set), encoded exactly. `strings.ToLower` maps each rune through the
  simple lowercase mapping; only the mappings that can produce ASCII output
  (`A`-`Z`, `K` U+212A, `İ` U+0130) are encoded, since no other rune lowers
  into the ASCII alphabet and so no other mapping can affect membership in
  the ASCII boolean vocabulary.
-/

/-- Go's `string` type. -/
abbrev GoString := String

/-- Go's `int`/`int64` (64-bit platform), as an unbounded integer with
explicit range checks where the code performs them. -/
abbrev GoInt := Int

/-- Go's `bool`. -/
abbrev GoBool := Bool

/-- Model of `url.Values` (`map[string][]string`): an association list from
key to the ordered list of raw values; keys are assumed distinct, as in a Go
map. -/
abbrev Values := List (GoString × List GoString)

/-- Go map indexing with comma-ok: `none` when the key is absent. -/
def Values.lookup (q : Values) (key : GoString) : Option (List GoString) :=
  match q with
  | [] => none
  | (k, vs) :: rest => if k = key then some vs else Values.lookup rest key

/-- `url.Values.Get`: first value for the key, or `""` when the key is
absent or has no values. -/
def Values.Get (q : Values) (key : GoString) : GoString :=
  match Values.lookup q key with
  | none => ""
  | some [] => ""
  | some (v :: _) => v

/-- The external HTTP request abstraction: it exposes the parsed query
multi-map (percent-decoding and parameter splitting happen upstream). -/
structure Request where
  queryValues : Values

/-- `r.URL.Query()`: the parsed multi-map of the request. -/
def Request.Query (r : Request) : Values := r.queryValues

/-- The ordered list of raw values recorded for a key (empty when absent);
this is what Go's `r.URL.Query()[key]` denotes, with `nil` as `[]`. -/
def rawValues (r : Request) (key : GoString) : List GoString :=
  (Values.lookup r.Query key).getD []

/-- ASCII decimal digit test (`'0'`-`'9'`). -/
def isDigit (c : Char) : Bool := 48 ≤ c.toNat && c.toNat ≤ 57

/-- Go `unicode.IsSpace`: the Unicode White_Space set, encoded exactly. -/
def goIsSpace (c : Char) : Bool :=
  let n := c.toNat
  (9 ≤ n && n ≤ 13) || n = 32 || n = 0x85 || n = 0xA0 || n = 0x1680 ||
    (0x2000 ≤ n && n ≤ 0x200A) || n = 0x2028 || n = 0x2029 || n = 0x202F ||
    n = 0x205F || n = 0x3000

/-- Go `strings.TrimSpace`: drop leading and trailing White_Space runes. -/
def goTrimSpace (s : GoString) : GoString :=
  ⟨((s.toList.dropWhile goIsSpace).reverse.dropWhile goIsSpace).reverse⟩

/-- Simple lowercase mapping of one rune, restricted to the mappings whose
output is ASCII (see the module comment): `A`-`Z`, U+212A KELVIN SIGN → `k`,
U+0130 LATIN CAPITAL LETTER I WITH DOT ABOVE → `i`; all other runes are
kept, which never changes membership in an all-ASCII vocabulary. -/
def goToLowerChar (c : Char) : Char :=
  if 65 ≤ c.toNat ∧ c.toNat ≤ 90 then Char.ofNat (c.toNat + 32)
  else if c.toNat = 0x212A then 'k'
  else if c.toNat = 0x0130 then 'i'
  else c

/-- Go `strings.ToLower`: lowercase each rune. -/
def goToLower (s : GoString) : GoString := ⟨s.toList.map goToLowerChar⟩

/-- Base-10 value of a digit run, failing on any non-digit character. -/
def digitsVal (cs : List Char) : Option Nat :=
  cs.foldl
    (fun acc c =>
      match acc with
      | none => none
      | some a => if isDigit c then some (a * 10 + (c.toNat - 48)) else none)
    (some 0)

/-- Minimum value of Go's `int64`. -/
def int64Min : Int := -(2 ^ 63)

/-- Maximum value of Go's `int64`. -/
def int64Max : Int := 2 ^ 63 - 1

/-- Strip the optional leading `+`/`-` of a numeric literal, yielding the
sign and the remaining characters. -/
def splitSign (cs : List Char) : Int × List Char :=
  match cs with
  | '+' :: r => (1, r)
  | '-' :: r => (-1, r)
  | r => (1, r)

/-- The signed-64-bit range check of `strconv.ParseInt`: a value outside
`[int64Min, int64Max]` is a range error. -/
def int64RangeCheck (v : Int) : Option Int :=
  if v < int64Min ∨ int64Max < v then none else some v

/-- Model of `strconv.ParseInt(s, 10, 64)`: optional `+`/`-` sign followed
by a non-empty run of decimal digits, then a signed-64-bit range check; any
syntax or range error is `none`. -/
def goParseInt64 (s : GoString) : Option Int :=
  match splitSign s.toList with
  | (sign, ds) =>
    if ds.isEmpty then none
    else
      match digitsVal ds with
      | none => none
      | some n => int64RangeCheck (sign * n)

/-- Model of `strconv.Atoi`: on a 64-bit platform `int` is `int64`, so this
is `ParseInt(s, 10, 64)`. -/
def goAtoi (s : GoString) : Option Int := goParseInt64 s

/-- Exact rational value of a decimal mantissa `ip . fp`. -/
def mantissaVal (ip fp : List Char) : Rat :=
  ((digitsVal ip).getD 0 : Nat) + (((digitsVal fp).getD 0 : Nat) : Rat) / ((10 : Rat) ^ fp.length)

/-- The optional exponent suffix of a float literal: empty input means
exponent 0; otherwise `e`/`E`, an optional sign, and a non-empty digit run
consuming the whole rest of the input. -/
def expVal (rest : List Char) : Option Int :=
  match rest with
  | [] => some 0
  | c :: r =>
    if c = 'e' ∨ c = 'E' then
      let signRest : Int × List Char :=
        match r with
        | '+' :: t => (1, t)
        | '-' :: t => (-1, t)
        | t => (1, t)
      match signRest with
      | (es, t) =>
        if t.isEmpty || !t.all isDigit then none
        else some (es * ((digitsVal t).getD 0 : Nat))
    else none

/-- Model of `strconv.ParseFloat(s, 64)` over exact rationals: optional
sign, decimal mantissa with at least one digit (`d…`, `d….d…`, `.d…` or
`d….`), optional `e`/`E` exponent; see the module comment for what is
abstracted. -/
def goParseFloat (s : GoString) : Option Rat :=
  let signRest : Rat × List Char :=
    match s.toList with
    | '+' :: r => (1, r)
    | '-' :: r => (-1, r)
    | r => (1, r)
  match signRest with
  | (sign, rest) =>
    match rest.span isDigit with
    | (ip, rest1) =>
      match rest1 with
      | '.' :: rest2 =>
        match rest2.span isDigit with
        | (fp, rest3) =>
          if ip.isEmpty && fp.isEmpty then none
          else
            match expVal rest3 with
            | none => none
            | some e => some (sign * mantissaVal ip fp * (10 : Rat) ^ e)
      | _ =>
        if ip.isEmpty then none
        else
          match expVal rest1 with
          | none => none
          | some e => some (sign * mantissaVal ip [] * (10 : Rat) ^ e)

namespace query

/-- The strings recognized as `true` by the boolean parser. -/
def boolTrueVocab : List GoString := ["true", "1", "yes", "on", "y"]

/-- The strings recognized as `false` by the boolean parser. -/
def boolFalseVocab : List GoString := ["false", "0", "no", "off", "n"]

/-- `parseBool`: trim whitespace, lowercase, then match the fixed
vocabulary; anything else is a parse error (`strconv.ErrSyntax`). -/
def parseBool (s : GoString) : Option GoBool :=
  let lower := goToLower (goTrimSpace s)
  if lower = "true" ∨ lower = "1" ∨ lower = "yes" ∨ lower = "on" ∨ lower = "y" then
    some true
  else if lower = "false" ∨ lower = "0" ∨ lower = "no" ∨ lower = "off" ∨ lower = "n" then
    some false
  else none

/-- `query.String`: first value for the key, or the default when the key is
missing or the value is empty. -/
def String (r : Request) (key defaultValue : GoString) : GoString :=
  let val := Values.Get r.Query key
  if val = "" then defaultValue else val

/-- `query.Int`: parse the first value with `strconv.Atoi`, defaulting when
missing, empty, or unparsable. -/
def Int (r : Request) (key : GoString) (defaultValue : GoInt) : GoInt :=
  let val := Values.Get r.Query key
  if val = "" then defaultValue
  else
    match goAtoi val with
    | none => defaultValue
    | some parsed => parsed

/-- `query.Int64`: parse the first value with `strconv.ParseInt(s,10,64)`,
defaulting when missing, empty, or unparsable. -/
def Int64 (r : Request) (key : GoString) (defaultValue : GoInt) : GoInt :=
  let val := Values.Get r.Query key
  if val = "" then defaultValue
  else
    match goParseInt64 val with
    | none => defaultValue
    | some parsed => parsed

/-- `query.Float64`: parse the first value with `strconv.ParseFloat(s,64)`,
defaulting when missing, empty, or unparsable. -/
def Float64 (r : Request) (key : GoString) (defaultValue : Rat) : Rat :=
  let val := Values.Get r.Query key
  if val = "" then defaultValue
  else
    match goParseFloat val with
    | none => defaultValue
    | some parsed => parsed

/-- `query.Bool`: parse the first value with `parseBool`, defaulting when
missing, empty, or unparsable. -/
def Bool (r : Request) (key : GoString) (defaultValue : GoBool) : GoBool :=
  let val := Values.Get r.Query key
  if val = "" then defaultValue
  else
    match parseBool val with
    | none => defaultValue
    | some parsed => parsed

/-- `query.Strings`: all raw values for the key; the empty slice when the
key is not present (`vals == nil`). -/
def Strings (r : Request) (key : GoString) : List GoString :=
  match Values.lookup r.Query key with
  | none => []
  | some vals => vals

/-- `query.Parser`: a fallible converter from string to `T`. -/
def Parser (T : Type) := GoString → Option T

/-- `query.Slice`: all raw values for the key, each converted with the
parser, with the default substituted at every position whose parse fails;
the empty slice when there are no values. -/
def Slice {T : Type} (r : Request) (key : GoString) (defaultValue : T)
    (p : Parser T) : List T :=
  let vals := (Values.lookup r.Query key).getD []
  if vals.length = 0 then []
  else
    vals.map fun val =>
      match p val with
      | none => defaultValue
      | some parsed => parsed

/-- `query.Ints`: `Slice` with `strconv.Atoi`. -/
def Ints (r : Request) (key : GoString) (defaultValue : GoInt) : List GoInt :=
  Slice r key defaultValue goAtoi

/-- `query.Int64s`: `Slice` with `strconv.ParseInt(s,10,64)`. -/
def Int64s (r : Request) (key : GoString) (defaultValue : GoInt) : List GoInt :=
  Slice r key defaultValue fun s => goParseInt64 s

/-- `query.Float64s`: `Slice` with `strconv.ParseFloat(s,64)`. -/
def Float64s (r : Request) (key : GoString) (defaultValue : Rat) : List Rat :=
  Slice r key defaultValue fun s => goParseFloat s

/-- `query.Bools`: `Slice` with `parseBool`. -/
def Bools (r : Request) (key : GoString) (defaultValue : GoBool) : List GoBool :=
  Slice r key defaultValue parseBool

/-- `query.Has`: the comma-ok presence test on the multi-map. -/
def Has (r : Request) (key : GoString) : GoBool :=
  (Values.lookup r.Query key).isSome

/-- `query.Count`: `len(r.URL.Query()[key])`, with `nil` of length 0. -/
def Count (r : Request) (key : GoString) : Nat :=
  ((Values.lookup r.Query key).getD []).length

/-- `query.IsMultiple`: `len(r.URL.Query()[key]) > 1`. -/
def IsMultiple (r : Request) (key : GoString) : GoBool :=
  decide (1 < ((Values.lookup r.Query key).getD []).length)

/-- `query.First`: head of a slice, or the default when it is empty. -/
def First {T : Type} (slice : List T) (defaultValue : T) : T :=
  match slice with
  | [] => defaultValue
  | x :: _ => x

/-- `query.All`: a freshly allocated map holding every entry of the parsed
query; at the level of values the copy has the same content. -/
def All (r : Request) : Values :=
  List.map (fun kv => kv) r.Query

end query

/-- Caller-side state after taking a snapshot with `All` and then mutating
it arbitrarily: the request itself is untouched, because `All` hands out a
copy and every extractor re-derives the multi-map from the request. -/
def snapshotThenMutate (r : Request) (f : Values → Values) : Request × Values :=
  (r, f (query.All r))

/-! ### Bridging lemmas -/

/-- The scalar extractors in `getD` form (the `match` on the parser result
collapses to `Option.getD`). -/
lemma Int_getD_form (r : Request) (key : GoString) (d : GoInt) :
    query.Int r key d =
      (if Values.Get r.Query key = "" then d else (goAtoi (Values.Get r.Query key)).getD d) := by
  simp only [query.Int]
  cases goAtoi (Values.Get r.Query key) <;> rfl

lemma Int64_getD_form (r : Request) (key : GoString) (d : GoInt) :
    query.Int64 r key d =
      (if Values.Get r.Query key = "" then d
       else (goParseInt64 (Values.Get r.Query key)).getD d) := by
  simp only [query.Int64]
  cases goParseInt64 (Values.Get r.Query key) <;> rfl

lemma Float64_getD_form (r : Request) (key : GoString) (d : Rat) :
    query.Float64 r key d =
      (if Values.Get r.Query key = "" then d
       else (goParseFloat (Values.Get r.Query key)).getD d) := by
  simp only [query.Float64]
  cases goParseFloat (Values.Get r.Query key) <;> rfl

lemma Bool_getD_form (r : Request) (key : GoString) (d : GoBool) :
    query.Bool r key d =
      (if Values.Get r.Query key = "" then d
       else (query.parseBool (Values.Get r.Query key)).getD d) := by
  simp only [query.Bool]
  cases query.parseBool (Values.Get r.Query key) <;> rfl

/-- `Slice` is the elementwise parse-or-default map over the raw values. -/
lemma Slice_eq_map {T : Type} (r : Request) (key : GoString) (d : T) (p : query.Parser T) :
    query.Slice r key d p = (rawValues r key).map fun v => (p v).getD d := by
  have hbody : ∀ v : GoString,
      (match p v with
       | none => d
       | some parsed => parsed) = (p v).getD d := by
    intro v; cases p v <;> rfl
  simp only [query.Slice]
  rw [show (Values.lookup r.Query key).getD [] = rawValues r key from rfl]
  rcases rawValues r key with _ | ⟨v, vs⟩
  · rfl
  · simp only [List.length_cons, Nat.succ_ne_zero, if_false, hbody]

/-- `Values.Get` returns the head of the raw values, or `""`. -/
lemma Get_eq_head (r : Request) (key : GoString) :
    Values.Get r.Query key =
      (match rawValues r key with
       | [] => ""
       | v :: _ => v) := by
  show (match Values.lookup r.Query key with
        | none => ""
        | some [] => ""
        | some (v :: _) => v) = _
  unfold rawValues
  rcases Values.lookup r.Query key with _ | ⟨_ | ⟨v, vs⟩⟩ <;> rfl

/-- `First` is `List.headD`. -/
lemma First_eq_headD {T : Type} (l : List T) (d : T) : query.First l d = l.headD d := by
  cases l <;> rfl

/-! ### Claim theorems -/

/-- C1: for every request, key, default and parser, `Slice` returns a
sequence whose length is the number of raw values recorded for the key and
whose `i`-th element is the parsed value of raw value `i` when the parser
succeeds on it and the default when it fails, in the original order. -/
theorem slice_pointwise_parse_or_default {T : Type} (r : Request) (key : GoString) (d : T)
    (p : query.Parser T) :
    (query.Slice r key d p).length = (rawValues r key).length ∧
    ∀ i : Nat,
      (query.Slice r key d p)[i]? = ((rawValues r key)[i]?).map fun v => (p v).getD d := by
  rw [Slice_eq_map]
  refine ⟨by simp, fun i => ?_⟩
  simp [List.getElem?_map]

/-- C2: every scalar extractor returns the parsed first raw value for the
key, and the default exactly when the key is absent (no raw values), the
first raw value is the empty string, or parsing the first raw value fails
(for `String` the parse is the identity and never fails). -/
theorem scalar_first_value_semantics (r : Request) (key : GoString) (ds : GoString)
    (di d64 : GoInt) (df : Rat) (db : GoBool) :
    (query.String r key ds =
      match rawValues r key with
      | [] => ds
      | v :: _ => if v = "" then ds else v) ∧
    (query.Int r key di =
      match rawValues r key with
      | [] => di
      | v :: _ => if v = "" then di else (goAtoi v).getD di) ∧
    (query.Int64 r key d64 =
      match rawValues r key with
      | [] => d64
      | v :: _ => if v = "" then d64 else (goParseInt64 v).getD d64) ∧
    (query.Float64 r key df =
      match rawValues r key with
      | [] => df
      | v :: _ => if v = "" then df else (goParseFloat v).getD df) ∧
    (query.Bool r key db =
      match rawValues r key with
      | [] => db
      | v :: _ => if v = "" then db else (query.parseBool v).getD db) := by
  refine ⟨?_, ?_, ?_, ?_, ?_⟩
  · simp only [query.String, Get_eq_head]
    rcases rawValues r key with _ | ⟨v, vs⟩ <;> simp
  · rw [Int_getD_form, Get_eq_head]
    rcases rawValues r key with _ | ⟨v, vs⟩ <;> simp
  · rw [Int64_getD_form, Get_eq_head]
    rcases rawValues r key with _ | ⟨v, vs⟩ <;> simp
  · rw [Float64_getD_form, Get_eq_head]
    rcases rawValues r key with _ | ⟨v, vs⟩ <;> simp
  · rw [Bool_getD_form, Get_eq_head]
    rcases rawValues r key with _ | ⟨v, vs⟩ <;> simp

/-- C5: each typed sequence extractor is exactly the generic `Slice`
instantiated with the corresponding scalar parser. -/
theorem typed_sequences_are_slice_instances (r : Request) (key : GoString)
    (di d64 : GoInt) (df : Rat) (db : GoBool) :
    query.Ints r key di = query.Slice r key di goAtoi ∧
    query.Int64s r key d64 = query.Slice r key d64 goParseInt64 ∧
    query.Float64s r key df = query.Slice r key df goParseFloat ∧
    query.Bools r key db = query.Slice r key db query.parseBool :=
  ⟨rfl, rfl, rfl, rfl⟩

/-- C9: `Strings` returns the recorded raw values verbatim, and the empty
sequence exactly when the key is absent; a key recorded with values is
returned as-is, so a single empty-string value yields `[""]`. -/
theorem strings_returns_raw_values (r : Request) (key : GoString) :
    (∀ vs, Values.lookup r.Query key = some vs → query.Strings r key = vs) ∧
    (Values.lookup r.Query key = none → query.Strings r key = []) := by
  constructor
  · intro vs h; simp [query.Strings, h]
  · intro h; simp [query.Strings, h]

/-- A request whose query string is `?tag=&tag=`. -/
def rTags : Request := ⟨[("tag", ["", ""])]⟩

/-- Witness for C9: for `?tag=&tag=`, `Strings` yields `["", ""]` — two
empty-string elements, not the empty sequence. -/
theorem strings_returns_raw_values_witness :
    query.Strings rTags "tag" = ["", ""] :=
  (strings_returns_raw_values rTags "tag").1 ["", ""] (by decide)

/-- C3: `All` equals the request's parsed multi-map, and arbitrary caller
mutation of the returned snapshot leaves every subsequent extraction on the
same request unchanged (every extractor re-derives the multi-map from the
request; the snapshot is a separate value). -/
theorem all_snapshot_decoupled (r : Request) (f : Values → Values) (key : GoString)
    (ds : GoString) (di : GoInt) (p : query.Parser GoInt) :
    query.All r = r.Query ∧
    query.String (snapshotThenMutate r f).1 key ds = query.String r key ds ∧
    query.Int (snapshotThenMutate r f).1 key di = query.Int r key di ∧
    query.Strings (snapshotThenMutate r f).1 key = query.Strings r key ∧
    query.Slice (snapshotThenMutate r f).1 key di p = query.Slice r key di p ∧
    query.Has (snapshotThenMutate r f).1 key = query.Has r key ∧
    query.Count (snapshotThenMutate r f).1 key = query.Count r key ∧
    query.All (snapshotThenMutate r f).1 = query.All r := by
  refine ⟨?_, rfl, rfl, rfl, rfl, rfl, rfl, rfl⟩
  simp [query.All]

/-- The scalar pattern `parse the first value or default` agrees with
taking `First` of the corresponding `Slice`, for any parser that fails on
the empty string. -/
lemma scalar_getD_eq_first_slice {T : Type} (r : Request) (key : GoString) (d : T)
    (p : query.Parser T) (hp : p "" = none) :
    (if Values.Get r.Query key = "" then d else (p (Values.Get r.Query key)).getD d) =
      query.First (query.Slice r key d p) d := by
  rw [Slice_eq_map, Get_eq_head, First_eq_headD]
  rcases rawValues r key with _ | ⟨v, vs⟩
  · simp
  · by_cases hv : v = ""
    · subst hv; simp [hp]
    · simp [hv]

/-- C10: each parsed-type scalar extractor agrees with `First` composed
with the corresponding typed sequence extractor using the same default. -/
theorem scalar_eq_first_of_typed_sequence (r : Request) (key : GoString)
    (di d64 : GoInt) (df : Rat) (db : GoBool) :
    query.Int r key di = query.First (query.Ints r key di) di ∧
    query.Int64 r key d64 = query.First (query.Int64s r key d64) d64 ∧
    query.Float64 r key df = query.First (query.Float64s r key df) df ∧
    query.Bool r key db = query.First (query.Bools r key db) db := by
  refine ⟨?_, ?_, ?_, ?_⟩
  · rw [Int_getD_form, query.Ints]
    exact scalar_getD_eq_first_slice r key di goAtoi (by decide)
  · rw [Int64_getD_form, query.Int64s]
    exact scalar_getD_eq_first_slice r key d64 (fun s => goParseInt64 s) (by decide)
  · rw [Float64_getD_form, query.Float64s]
    exact scalar_getD_eq_first_slice r key df (fun s => goParseFloat s) (by decide)
  · rw [Bool_getD_form, query.Bools]
    exact scalar_getD_eq_first_slice r key db query.parseBool (by decide)

/-- Trichotomy of `parseBool`: the trimmed, lowercased input is matched
against the true vocabulary, then the false vocabulary, else the parse
fails. -/
lemma parseBool_cases (s : GoString) :
    (goToLower (goTrimSpace s) ∈ query.boolTrueVocab ∧ query.parseBool s = some true) ∨
    (goToLower (goTrimSpace s) ∈ query.boolFalseVocab ∧ query.parseBool s = some false) ∨
    (goToLower (goTrimSpace s) ∉ query.boolTrueVocab ∧
      goToLower (goTrimSpace s) ∉ query.boolFalseVocab ∧ query.parseBool s = none) := by
  simp only [query.parseBool, query.boolTrueVocab, query.boolFalseVocab, List.mem_cons,
    List.not_mem_nil, or_false]
  split_ifs with h1 h2
  · exact Or.inl ⟨h1, rfl⟩
  · exact Or.inr (Or.inl ⟨h2, rfl⟩)
  · exact Or.inr (Or.inr ⟨h1, h2, rfl⟩)

/-- No string is in both boolean vocabularies. -/
lemma boolVocab_disjoint (l : GoString) (h1 : l ∈ query.boolTrueVocab)
    (h2 : l ∈ query.boolFalseVocab) : False := by
  simp only [query.boolTrueVocab, query.boolFalseVocab, List.mem_cons, List.not_mem_nil,
    or_false] at h1 h2
  rcases h1 with h | h | h | h | h <;> subst h <;> simp_all

/-- C4: the boolean parser trims and lowercases its input and then returns
true exactly on the true vocabulary, false exactly on the false vocabulary,
and failure on everything else; hence boolean scalar extraction returns the
default whenever the (trimmed, lowercased) first value is outside the
vocabulary. -/
theorem parseBool_vocabulary (s : GoString) (r : Request) (key : GoString) (d : GoBool) :
    (query.parseBool s = some true ↔ goToLower (goTrimSpace s) ∈ query.boolTrueVocab) ∧
    (query.parseBool s = some false ↔ goToLower (goTrimSpace s) ∈ query.boolFalseVocab) ∧
    (query.parseBool s = none ↔
      goToLower (goTrimSpace s) ∉ query.boolTrueVocab ∧
        goToLower (goTrimSpace s) ∉ query.boolFalseVocab) ∧
    (goToLower (goTrimSpace (Values.Get r.Query key)) ∉ query.boolTrueVocab →
      goToLower (goTrimSpace (Values.Get r.Query key)) ∉ query.boolFalseVocab →
      query.Bool r key d = d) := by
  refine ⟨?_, ?_, ?_, ?_⟩
  · constructor
    · intro h
      rcases parseBool_cases s with ⟨hm, _⟩ | ⟨_, he⟩ | ⟨_, _, he⟩
      · exact hm
      · rw [he] at h; simp at h
      · rw [he] at h; simp at h
    · intro hm
      rcases parseBool_cases s with ⟨_, he⟩ | ⟨hm2, _⟩ | ⟨hm1, _, _⟩
      · exact he
      · exact absurd hm (fun h => boolVocab_disjoint _ h hm2)
      · exact absurd hm hm1
  · constructor
    · intro h
      rcases parseBool_cases s with ⟨_, he⟩ | ⟨hm, _⟩ | ⟨_, _, he⟩
      · rw [he] at h; simp at h
      · exact hm
      · rw [he] at h; simp at h
    · intro hm
      rcases parseBool_cases s with ⟨hm2, _⟩ | ⟨_, he⟩ | ⟨_, hm1, _⟩
      · exact absurd hm (boolVocab_disjoint _ hm2)
      · exact he
      · exact absurd hm hm1
  · constructor
    · intro h
      rcases parseBool_cases s with ⟨_, he⟩ | ⟨_, he⟩ | ⟨hm1, hm2, _⟩
      · rw [he] at h; simp at h
      · rw [he] at h; simp at h
      · exact ⟨hm1, hm2⟩
    · rintro ⟨hm1, hm2⟩
      rcases parseBool_cases s with ⟨hm, _⟩ | ⟨hm, _⟩ | ⟨_, _, he⟩
      · exact absurd hm hm1
      · exact absurd hm hm2
      · exact he
  · intro h1 h2
    rw [Bool_getD_form]
    by_cases hv : Values.Get r.Query key = ""
    · simp [hv]
    · rcases parseBool_cases (Values.Get r.Query key) with ⟨hm, _⟩ | ⟨hm, _⟩ | ⟨_, _, he⟩
      · exact absurd hm h1
      · exact absurd hm h2
      · simp [hv, he]

/-- A request whose query string is `?flag=maybe`. -/
def rMaybe : Request := ⟨[("flag", ["maybe"])]⟩

/-- Witness for C4: `"maybe"` is outside the vocabulary, so boolean
extraction returns the supplied default. -/
theorem parseBool_vocabulary_witness : query.Bool rMaybe "flag" true = true :=
  (parseBool_vocabulary "x" rMaybe "flag" true).2.2.2 (by decide) (by decide)

/-- C7: for a key absent from the multi-map, every scalar extractor
returns exactly the supplied default, every sequence extractor returns the
empty sequence, `Has` is false, `Count` is 0, and `IsMultiple` is false. -/
theorem absent_key_defaults (r : Request) (key : GoString) (ds : GoString)
    (di d64 : GoInt) (df : Rat) (db : GoBool) {T : Type} (dT : T) (pT : query.Parser T)
    (h : Values.lookup r.Query key = none) :
    query.String r key ds = ds ∧
    query.Int r key di = di ∧
    query.Int64 r key d64 = d64 ∧
    query.Float64 r key df = df ∧
    query.Bool r key db = db ∧
    query.Strings r key = [] ∧
    query.Slice r key dT pT = [] ∧
    query.Ints r key di = [] ∧
    query.Int64s r key d64 = [] ∧
    query.Float64s r key df = [] ∧
    query.Bools r key db = [] ∧
    query.Has r key = false ∧
    query.Count r key = 0 ∧
    query.IsMultiple r key = false := by
  have hraw : rawValues r key = [] := by simp [rawValues, h]
  have hget : Values.Get r.Query key = "" := by rw [Get_eq_head, hraw]
  have hslice : ∀ {T : Type} (dT : T) (pT : query.Parser T), query.Slice r key dT pT = [] := by
    intro T dT pT; rw [Slice_eq_map, hraw]; rfl
  refine ⟨?_, ?_, ?_, ?_, ?_, ?_, hslice dT pT, hslice di goAtoi, hslice d64 _,
    hslice df _, hslice db _, ?_, ?_, ?_⟩
  · simp [query.String, hget]
  · rw [Int_getD_form]; simp [hget]
  · rw [Int64_getD_form]; simp [hget]
  · rw [Float64_getD_form]; simp [hget]
  · rw [Bool_getD_form]; simp [hget]
  · simp [query.Strings, h]
  · simp [query.Has, h]
  · simp [query.Count, h]
  · simp [query.IsMultiple, h]

/-- A request whose query string is `?a=1`. -/
def rOnlyA : Request := ⟨[("a", ["1"])]⟩

/-- Witness for C7: the key `b` is absent from `?a=1`, and every operation
falls back as claimed. -/
theorem absent_key_defaults_witness :
    query.String rOnlyA "b" "dflt" = "dflt" ∧
    query.Int rOnlyA "b" 3 = 3 ∧
    query.Int64 rOnlyA "b" 4 = 4 ∧
    query.Float64 rOnlyA "b" 5 = 5 ∧
    query.Bool rOnlyA "b" true = true ∧
    query.Strings rOnlyA "b" = [] ∧
    query.Slice rOnlyA "b" (9 : GoInt) goAtoi = [] ∧
    query.Ints rOnlyA "b" 3 = [] ∧
    query.Int64s rOnlyA "b" 4 = [] ∧
    query.Float64s rOnlyA "b" 5 = [] ∧
    query.Bools rOnlyA "b" true = [] ∧
    query.Has rOnlyA "b" = false ∧
    query.Count rOnlyA "b" = 0 ∧
    query.IsMultiple rOnlyA "b" = false :=
  absent_key_defaults rOnlyA "b" "dflt" 3 4 5 true (9 : GoInt) goAtoi (by decide)

/-- Any value accepted by the range check lies in the signed-64-bit range. -/
lemma int64RangeCheck_sound (v n : Int) (h : int64RangeCheck v = some n) :
    int64Min ≤ n ∧ n ≤ int64Max := by
  unfold int64RangeCheck at h
  split_ifs at h with hr
  cases h
  push_neg at hr
  omega

/-- Every successfully parsed integer lies in the signed-64-bit range:
overflow is contained inside the parser as a range error. -/
lemma goParseInt64_range (s : GoString) (n : Int) (h : goParseInt64 s = some n) :
    int64Min ≤ n ∧ n ≤ int64Max := by
  unfold goParseInt64 at h
  rcases hs : splitSign s.toList with ⟨sign, ds⟩
  rw [hs] at h
  simp only at h
  by_cases he : ds.isEmpty
  · rw [if_pos he] at h; cases h
  · rw [if_neg he] at h
    rcases hd : digitsVal ds with _ | m
    · rw [hd] at h; cases h
    · rw [hd] at h
      exact int64RangeCheck_sound _ _ h

/-- C6: extraction is total over all input strings and the internal parser
failure signal never reaches the caller: parsed integers always lie in the
64-bit range (overflow is contained as a parse failure), and every scalar
or sequence result is either the supplied default or a successfully parsed
value — there is no third, error-valued outcome. -/
theorem extraction_total_no_error (r : Request) (key : GoString) (di : GoInt) (db : GoBool)
    (s : GoString) :
    (∀ n : Int, goAtoi s = some n → int64Min ≤ n ∧ n ≤ int64Max) ∧
    (query.Int r key di = di ∨
      ∃ n, goAtoi (Values.Get r.Query key) = some n ∧ query.Int r key di = n) ∧
    (query.Bool r key db = db ∨
      query.parseBool (Values.Get r.Query key) = some (query.Bool r key db)) ∧
    (∀ x ∈ query.Slice r key di goAtoi,
      x = di ∨ ∃ v ∈ rawValues r key, goAtoi v = some x) := by
  refine ⟨fun n h => goParseInt64_range s n h, ?_, ?_, ?_⟩
  · rw [Int_getD_form]
    by_cases hv : Values.Get r.Query key = ""
    · exact Or.inl (by simp [hv])
    · rcases hn : goAtoi (Values.Get r.Query key) with _ | n
      · exact Or.inl (by simp [hv])
      · exact Or.inr ⟨n, rfl, by simp [hv]⟩
  · rw [Bool_getD_form]
    by_cases hv : Values.Get r.Query key = ""
    · exact Or.inl (by simp [hv])
    · rcases hn : query.parseBool (Values.Get r.Query key) with _ | b
      · exact Or.inl (by simp [hv])
      · exact Or.inr (by simp [hv])
  · intro x hx
    rw [Slice_eq_map] at hx
    rcases List.mem_map.mp hx with ⟨v, hv, hxe⟩
    rcases hn : goAtoi v with _ | m
    · refine Or.inl ?_
      rw [← hxe, hn]; rfl
    · refine Or.inr ⟨v, hv, ?_⟩
      rw [hn, ← hxe, hn]; rfl

/-- A request whose query string is `?n=5`. -/
def rFive : Request := ⟨[("n", ["5"])]⟩

/-- Witness for C6 at a concrete input: parsing `"5"` stays in range, and
the only element that sequence extraction produces for `?n=5` is a parsed
value of a raw value. -/
theorem extraction_total_no_error_witness :
    (int64Min ≤ (5 : Int) ∧ (5 : Int) ≤ int64Max) ∧
    ((5 : GoInt) = 7 ∨ ∃ v ∈ rawValues rFive "n", goAtoi v = some 5) :=
  ⟨(extraction_total_no_error rFive "n" 7 false "5").1 5 (by decide),
   (extraction_total_no_error rFive "n" 7 false "5").2.2.2 5 (by decide)⟩

/-- C8: for a first raw value that parses as a base-10 number within the
target type's range, numeric extraction returns exactly that value
(negative values and zero included); every parse failure — the out-of-range
case is contained in the parser by `int64RangeCheck` — returns the supplied
default. -/
theorem numeric_exact_value_or_default (r : Request) (key : GoString)
    (di d64 : GoInt) (df : Rat) :
    (∀ n : Int, goAtoi (Values.Get r.Query key) = some n → query.Int r key di = n) ∧
    (goAtoi (Values.Get r.Query key) = none → query.Int r key di = di) ∧
    (∀ n : Int, goParseInt64 (Values.Get r.Query key) = some n → query.Int64 r key d64 = n) ∧
    (goParseInt64 (Values.Get r.Query key) = none → query.Int64 r key d64 = d64) ∧
    (∀ q : Rat, goParseFloat (Values.Get r.Query key) = some q → query.Float64 r key df = q) ∧
    (goParseFloat (Values.Get r.Query key) = none → query.Float64 r key df = df) := by
  have hEmptyInt : goAtoi "" = none := by decide
  have hEmptyFloat : goParseFloat "" = none := by decide
  refine ⟨?_, ?_, ?_, ?_, ?_, ?_⟩
  · intro n hn
    rw [Int_getD_form]
    by_cases hv : Values.Get r.Query key = ""
    · rw [hv, hEmptyInt] at hn; cases hn
    · simp [hv, hn]
  · intro hn
    rw [Int_getD_form]
    by_cases hv : Values.Get r.Query key = "" <;> simp [hv, hn]
  · intro n hn
    rw [Int64_getD_form]
    by_cases hv : Values.Get r.Query key = ""
    · rw [hv] at hn; exact absurd hn (by rw [show goParseInt64 "" = none from hEmptyInt]; simp)
    · simp [hv, hn]
  · intro hn
    rw [Int64_getD_form]
    by_cases hv : Values.Get r.Query key = "" <;> simp [hv, hn]
  · intro q hq
    rw [Float64_getD_form]
    by_cases hv : Values.Get r.Query key = ""
    · rw [hv, hEmptyFloat] at hq; cases hq
    · simp [hv, hq]
  · intro hq
    rw [Float64_getD_form]
    by_cases hv : Values.Get r.Query key = "" <;> simp [hv, hq]

/-- A request whose query string is
`?a=-9999999999&b=9223372036854775808&c=1.23e-4&z=0`. -/
def rNums : Request :=
  ⟨[("a", ["-9999999999"]), ("b", ["9223372036854775808"]), ("c", ["1.23e-4"]), ("z", ["0"])]⟩

/-- Witness for C8 at the spec's own examples: `"-9999999999"` extracts as
the exact 64-bit integer, the out-of-range `"9223372036854775808"` (2^63)
falls back to the default, `"1.23e-4"` extracts as exactly 1.23×10⁻⁴, and
`"0"` extracts as zero. -/
theorem numeric_exact_value_or_default_witness :
    query.Int64 rNums "a" 0 = -9999999999 ∧
    query.Int rNums "b" 7 = 7 ∧
    query.Float64 rNums "c" 0 = 123 / 1000000 ∧
    query.Int rNums "z" 5 = 0 := by
  refine ⟨?_, ?_, ?_, ?_⟩
  · exact (numeric_exact_value_or_default rNums "a" 0 0 0).2.2.1 (-9999999999) (by decide)
  · exact (numeric_exact_value_or_default rNums "b" 7 0 0).2.1 (by decide)
  · refine (numeric_exact_value_or_default rNums "c" 0 0 0).2.2.2.2.1 (123 / 1000000) ?_
    rw [show Values.Get rNums.Query "c" = "1.23e-4" by decide]
    rw [show goParseFloat "1.23e-4" =
      some ((1 : Rat) * mantissaVal ['1'] ['2', '3'] * (10 : Rat) ^ (-(4 : Int))) from rfl]
    simp [mantissaVal, digitsVal, isDigit]
    norm_num
  · exact (numeric_exact_value_or_default rNums "z" 5 0 0).1 0 (by decide)
